import Mathlib

/-!
Verification of the consensus-edge backend (`src/main.py`).

The Python source is shallowly embedded below.  Python `float` values are
modelled as exact rationals (`ℚ`): all arithmetic the program performs on
odds and probabilities (division, addition, halving, comparison) is carried
over exactly; IEEE rounding is abstracted away.  JSON dictionaries coming
from the upstream API are modelled as structures.  String fields the code
reads only with plain `.get(k)` are `Option String` (`none` for an absent
key or a JSON `null` — Python returns `None` for both); string fields
read with a default, `d.get(k, default)`, are the three-valued `PyStr`
(`absent` / `pynull` / `str`), because Python substitutes the default only
for an absent key while a present `null` comes back as `None` and later
fails pydantic validation in `Bet(...)`.  The `price` field, which the
code pipes through `float(... or 0.0)`, is modelled by `PyNum` so that
absent / null / numeric / non-numeric payloads are all representable.
Fallible Python code (a `ValueError` from `float`, a pydantic validation
error from `Bet(...)`) is modelled with `Except String`.  The wall clock
read by `datetime.utcnow().isoformat()` is passed in explicitly as a
`now : String` argument.  The nested array fields (`bookmakers`,
`markets`, `outcomes`) are modelled as lists, with an absent key reading
as `[]` per the code's `.get(k, [])`; a present-but-null array (over
which iteration would raise `TypeError`) is outside this input space.
-/

namespace Apuestas

/-- Python truthiness of an optional string: `None` and `""` are falsy. -/
def pyTruthy : Option String → Bool
  | none => false
  | some s => !(s == "")

/-- Python `x or d` for an optional string `x` (`None`/`""` fall through). -/
def pyOrS (x : Option String) (d : String) : String :=
  match x with
  | none => d
  | some s => if s = "" then d else s

/-- Python `str(...)` of an optional value as interpolated by an f-string:
`None` prints as `"None"`. -/
def strRepr (x : Option String) : String := x.getD "None"

/-- A JSON string field that the code reads with `dict.get(key, default)`:
the key may be absent, may be present with value `null` (Python `None`),
or may hold a string.  Absent and null must be kept apart because
`d.get(k, default)` substitutes the default only for an absent key — a
present `null` comes back as `None`. -/
inductive PyStr where
  | absent : PyStr
  | pynull : PyStr
  | str : String → PyStr
deriving DecidableEq, Repr

/-- Python `d.get(k, default)` for a string-or-null field: the default only
for an absent key; a present `null` yields `None` (here `none`). -/
def getDefault : PyStr → String → Option String
  | .absent, d => some d
  | .pynull, _ => none
  | .str s, _ => some s

/-- Python `str(d.get(k))` as interpolated by an f-string (no default):
absent and null both print as `"None"`. -/
def pyRepr : PyStr → String
  | .absent => "None"
  | .pynull => "None"
  | .str s => s

/-- Python `x or y` on two optional strings (`None`/`""` make `x` falsy). -/
def pyOrOpt (x y : Option String) : Option String :=
  match x with
  | none => y
  | some s => if s = "" then y else some s

/-- The JSON `price` field as seen by `float(outcome.get("price", 0.0) or 0.0)`:
the key may be absent, may be JSON `null`, may be a number, or may be a
truthy value that `float` cannot convert. -/
inductive PyNum where
  | absent : PyNum
  | pynull : PyNum
  | num : ℚ → PyNum
  | nonNumeric : String → PyNum
deriving DecidableEq, Repr

/-- `float(outcome.get("price", 0.0) or 0.0)` — src/main.py lines 135 and 167.
An absent key defaults to `0.0`; `None` (and the numeric falsy `0`) fall
through `or` to `0.0`; a numeric payload is used as-is; a truthy
non-numeric payload makes `float` raise `ValueError`. -/
def pyFloatPrice : PyNum → Except String ℚ
  | .absent => .ok 0
  | .pynull => .ok 0
  | .num q => .ok q
  | .nonNumeric s => .error ("ValueError: could not convert string to float: " ++ s)

/-- One entry of a market's `outcomes` array. -/
structure Outcome where
  name : Option String
  price : PyNum
deriving DecidableEq, Repr

/-- One entry of a bookmaker's `markets` array.  `key` is read with
`mkt.get("key", "h2h")`, so absent and null must be distinguished. -/
structure Market where
  key : PyStr
  outcomes : List Outcome
deriving DecidableEq, Repr

/-- One entry of an event's `bookmakers` array.  `title` is read with
`bk.get("title", "Bookmaker")`, so absent and null must be distinguished. -/
structure Bookmaker where
  title : PyStr
  markets : List Market
deriving DecidableEq, Repr

/-- One event record as returned by `/v4/sports/{sport}/odds`.
`home_team`, `away_team` and `sport_key` are read with defaults
(`"Home"`, `"Away"`, `"Sport"`), so they are `PyStr`; the remaining
optional fields are only ever read with plain `.get` (absent and null
indistinguishable), so `Option String` suffices for them. -/
structure Event where
  id : Option String
  commence_time : Option String
  home_team : PyStr
  away_team : PyStr
  sport_title : Option String
  sport_key : PyStr
  bookmakers : List Bookmaker
deriving DecidableEq, Repr

/-- The output record (`class Bet(BaseModel)`, src/main.py lines 48-56). -/
structure Bet where
  event : String
  bookmaker : String
  market : String
  selection : String
  odds : ℚ
  edge : ℚ
  sport : String
  start_time : String
deriving DecidableEq, Repr

/-- Consensus Key: `(event_id, market_key, sel)` (src/main.py line 139).
`sel = outcome.get("name")` may be `None`, and
`market_key = mkt.get("key", "h2h")` may be `None` when the field is a
present `null`, hence the `Option`s; the event id is always a string. -/
abbrev Key := String × Option String × Option String

/-- The dictionary `imps_by_key : Dict[tuple, List[float]]`. -/
abbrev Imps := List (Key × List ℚ)

/-- `imps_by_key.get(key, [])`. -/
def dget : Imps → Key → List ℚ
  | [], _ => []
  | (kv : Key × List ℚ) :: rest, k => if k = kv.1 then kv.2 else dget rest k

/-- `imps_by_key.setdefault(key, []).append(p)`: append to the existing entry,
or add a fresh entry at the end of the dict. -/
def dapp : Imps → Key → ℚ → Imps
  | [], k, p => [(k, [p])]
  | (kv : Key × List ℚ) :: rest, k, p =>
      if k = kv.1 then (kv.1, kv.2 ++ [p]) :: rest else kv :: dapp rest k p

/-- Python `sorted` on a list of floats: ascending, stable (stability is
immaterial on `ℚ` values).  Modelled by insertion sort, which produces the
unique `≤`-sorted permutation. -/
def pysorted (l : List ℚ) : List ℚ := l.insertionSort (· ≤ ·)

/-- The nested `consensus` function, src/main.py lines 143-149:
median of the sorted list, `0.0` on the empty list (`if not imps:`). -/
def consensus (imps : List ℚ) : ℚ :=
  if imps = [] then 0
  else
    let s := pysorted imps
    let n := s.length
    if n % 2 = 1 then s.getD (n / 2) 0
    else (0.5 : ℚ) * (s.getD (n / 2 - 1) 0 + s.getD (n / 2) 0)

/-- Event identifier as built in the collection pass (src/main.py line 129):
`ev.get("id") or f"{ev.get('home_team')}|{ev.get('away_team')}|{ev.get('commence_time')}"`.
Note the raw `commence_time` (printing as `"None"` when absent). -/
def eventId1 (ev : Event) : String :=
  pyOrS ev.id
    (pyRepr ev.home_team ++ "|" ++ pyRepr ev.away_team ++ "|" ++ strRepr ev.commence_time)

/-- `start_time = start_iso or datetime.utcnow().isoformat()` (line 154). -/
def startTime (now : String) (ev : Event) : String := pyOrS ev.commence_time now

/-- Event identifier as built in the emission pass (src/main.py line 156):
the fallback interpolates `start_time` (the clock fallback), not the raw
`commence_time`. -/
def eventId2 (now : String) (ev : Event) : String :=
  pyOrS ev.id
    (pyRepr ev.home_team ++ "|" ++ pyRepr ev.away_team ++ "|" ++ startTime now ev)

/-- `Bet(...)` (src/main.py lines 174-183): pydantic validates the model's
string fields, rejecting `None` for `bookmaker`, `market`, `selection` and
`sport` (which hold the results of default-reads or plain reads and may be
`None`); `event`, `start_time` and the floats are strings/numbers by
construction. -/
def betValidate (evName : String) (bkName mk sel : Option String)
    (odds edge : ℚ) (sport : Option String) (startT : String) : Except String Bet :=
  match bkName, mk, sel, sport with
  | some bk, some mkS, some selS, some sp =>
    .ok { event := evName, bookmaker := bk, market := mkS, selection := selS,
          odds := odds, edge := edge, sport := sp, start_time := startT }
  | _, _, _, _ => .error "ValidationError: none is not an allowed value for a Bet string field"

/-- Collection pass, innermost loop over `mkt.get("outcomes", [])`
(src/main.py lines 133-140): skip quotes with odds ≤ 1.0, append
`1/odds` under the Consensus Key otherwise. -/
def collectOutcomes (eid : String) (mk : Option String) :
    Imps → List Outcome → Except String Imps
  | m, [] => .ok m
  | m, o :: os =>
    match pyFloatPrice o.price with
    | .error e => .error e
    | .ok odds =>
      if odds ≤ 1 then collectOutcomes eid mk m os
      else collectOutcomes eid mk (dapp m (eid, mk, o.name) (1 / odds)) os

/-- Collection pass, loop over `bk.get("markets", [])` (lines 131-132). -/
def collectMarkets (eid : String) : Imps → List Market → Except String Imps
  | m, [] => .ok m
  | m, mkt :: mkts =>
    match collectOutcomes eid (getDefault mkt.key "h2h") m mkt.outcomes with
    | .error e => .error e
    | .ok m2 => collectMarkets eid m2 mkts

/-- Collection pass, loop over `ev.get("bookmakers", [])` (line 130). -/
def collectBookmakers (eid : String) : Imps → List Bookmaker → Except String Imps
  | m, [] => .ok m
  | m, bk :: bks =>
    match collectMarkets eid m bk.markets with
    | .error e => .error e
    | .ok m2 => collectBookmakers eid m2 bks

/-- Collection pass, one event (lines 128-129). -/
def collectEvent (m : Imps) (ev : Event) : Except String Imps :=
  collectBookmakers (eventId1 ev) m ev.bookmakers

/-- Collection pass, loop over `events` (line 128). -/
def collectEvents : Imps → List Event → Except String Imps
  | m, [] => .ok m
  | m, ev :: evs =>
    match collectEvent m ev with
    | .error e => .error e
    | .ok m2 => collectEvents m2 evs

/-- Emission pass, innermost loop (src/main.py lines 165-183).  Skip quotes
with odds ≤ 1.0; look up the consensus under `(event_id, market_key, sel)`;
then `Bet(...)` validates — raising when any of `bookmaker`, `market`,
`selection` or `sport` is `None` (missing name, or a null default-read
field). -/
def emitOutcomes (eid : String) (mk bkName : Option String) (evName : String)
    (sport : Option String) (startT : String) (m : Imps) :
    List Outcome → Except String (List Bet)
  | [] => .ok []
  | o :: os =>
    match pyFloatPrice o.price with
    | .error e => .error e
    | .ok odds =>
      if odds ≤ 1 then emitOutcomes eid mk bkName evName sport startT m os
      else
        match betValidate evName bkName mk o.name odds
            (consensus (dget m (eid, mk, o.name)) - 1 / odds) sport startT with
        | .error e => .error e
        | .ok b =>
          match emitOutcomes eid mk bkName evName sport startT m os with
          | .error e => .error e
          | .ok rest => .ok (b :: rest)

/-- Emission pass, loop over markets (lines 163-164),
`market_key = mkt.get("key", "h2h")`. -/
def emitMarkets (eid : String) (bkName : Option String) (evName : String)
    (sport : Option String) (startT : String) (m : Imps) :
    List Market → Except String (List Bet)
  | [] => .ok []
  | mkt :: mkts =>
    match emitOutcomes eid (getDefault mkt.key "h2h") bkName evName sport startT m mkt.outcomes with
    | .error e => .error e
    | .ok bs =>
      match emitMarkets eid bkName evName sport startT m mkts with
      | .error e => .error e
      | .ok rest => .ok (bs ++ rest)

/-- Emission pass, loop over bookmakers (lines 161-162),
`bk_name = bk.get("title", "Bookmaker")`. -/
def emitBookmakers (eid evName : String) (sport : Option String) (startT : String)
    (m : Imps) : List Bookmaker → Except String (List Bet)
  | [] => .ok []
  | bk :: bks =>
    match emitMarkets eid (getDefault bk.title "Bookmaker") evName sport startT m bk.markets with
    | .error e => .error e
    | .ok bs =>
      match emitBookmakers eid evName sport startT m bks with
      | .error e => .error e
      | .ok rest => .ok (bs ++ rest)

/-- Emission pass, one event (src/main.py lines 152-159): per-event derived
values `start_time`, `sport_group` (`ev.get("sport_title") or
ev.get("sport_key", "Sport")`, which is `None` when `sport_title` is falsy
and `sport_key` is a present `null`), `event_id`, and `event_name`
(an f-string, so a null team prints as `"None"` while an absent one gets
the `"Home"`/`"Away"` default). -/
def emitEvent (m : Imps) (now : String) (ev : Event) : Except String (List Bet) :=
  emitBookmakers (eventId2 now ev)
    (strRepr (getDefault ev.home_team "Home") ++ " vs " ++ strRepr (getDefault ev.away_team "Away"))
    (pyOrOpt ev.sport_title (getDefault ev.sport_key "Sport"))
    (startTime now ev) m ev.bookmakers

/-- Emission pass, loop over `events` (line 152). -/
def emitEvents (m : Imps) (now : String) : List Event → Except String (List Bet)
  | [] => .ok []
  | ev :: evs =>
    match emitEvent m now ev with
    | .error e => .error e
    | .ok bs =>
      match emitEvents m now evs with
      | .error e => .error e
      | .ok rest => .ok (bs ++ rest)

/-- `compute_edges(events)` (src/main.py lines 115-184): collection pass,
then emission pass against the collected map.  `now` is the value
`datetime.utcnow().isoformat()` would produce during this call. -/
def compute_edges (events : List Event) (now : String) : Except String (List Bet) :=
  match collectEvents [] events with
  | .error e => .error e
  | .ok m => emitEvents m now events

/-! ### `api_get` (src/main.py lines 62-75) -/

/-- FastAPI `HTTPException(status_code, detail)` as raised by `api_get`. -/
structure HTTPException where
  status_code : Nat
  detail : String
deriving DecidableEq, Repr

/-- What one upstream `requests.get` attempt can produce: a response with a
status code and a (decoded) body, or a `requests.RequestException`
(connection failure, timeout, ...) with its string rendering. -/
inductive Upstream where
  | resp : Nat → String → Upstream
  | failure : String → Upstream
deriving DecidableEq, Repr

/-- `api_get` (src/main.py lines 62-75) given the outcome `r` of its single
upstream request.  `errStr status body` stands for `str(e)` of the
`requests.HTTPError` that `r.raise_for_status()` raises for a 4xx/5xx
response; that exception is caught by `except requests.RequestException`
and wrapped into a 502.  The `HTTPException`s raised for 401/429 are not
`RequestException`s and propagate uncaught. -/
def api_get (r : Upstream) (errStr : Nat → String → String) : Except HTTPException String :=
  match r with
  | .failure msg => .error ⟨502, "Error al contactar con The Odds API: " ++ msg⟩
  | .resp status body =>
    if status = 401 then .error ⟨502, "API Key inválida o no configurada (401)"⟩
    else if status = 429 then .error ⟨429, "Límite de peticiones alcanzado (429)"⟩
    else if 400 ≤ status ∧ status < 600 then
      .error ⟨502, "Error al contactar con The Odds API: " ++ errStr status body⟩
    else .ok body

/-! ### `get_bets` (src/main.py lines 222-254) -/

/-- `if edge_min is not None: thr = float(edge_min)/100.0; bets = [b for b in
bets if b.edge >= thr]` (lines 245-247). -/
def edgeMinFilter (bets : List Bet) : Option ℚ → List Bet
  | none => bets
  | some e => bets.filter (fun b => decide (e / 100 ≤ b.edge))

/-- `if edge_max is not None: thr = float(edge_max)/100.0; bets = [b for b in
bets if b.edge <= thr]` (lines 248-250). -/
def edgeMaxFilter (bets : List Bet) : Option ℚ → List Bet
  | none => bets
  | some e => bets.filter (fun b => decide (b.edge ≤ e / 100))

/-- The descending-edge order used by `bets.sort(key=lambda b: b.edge,
reverse=True)`. -/
def edgeGe (a b : Bet) : Prop := b.edge ≤ a.edge

instance : DecidableRel edgeGe := fun a b => inferInstanceAs (Decidable (b.edge ≤ a.edge))

instance : IsTotal Bet edgeGe := ⟨fun a b => le_total b.edge a.edge⟩

instance : IsTrans Bet edgeGe := ⟨fun _ _ _ h1 h2 => le_trans h2 h1⟩

/-- `bets.sort(key=lambda b: b.edge, reverse=True)` (line 253): stable sort
by descending edge, modelled by stable insertion sort. -/
def sortBetsDesc (bets : List Bet) : List Bet := bets.insertionSort edgeGe

/-- `get_bets` (src/main.py lines 222-254) after the upstream fetch.
`events` is what `fetch_odds_for_sport` returned, `now` the clock string
used by `compute_edges`.  Wall-clock datetime values are abstracted to `ℚ`:
`toDt` stands for `iso_to_dt` and `limitDt` for
`datetime.utcnow() + timedelta(hours=hours_before)`. -/
def get_bets (events : List Event) (now : String) (toDt : String → ℚ) (limitDt : ℚ)
    (bookmaker : Option String) (hoursBefore : Option ℚ) (edgeMin edgeMax : Option ℚ) :
    Except String (List Bet) :=
  match compute_edges events now with
  | .error e => .error e
  | .ok bets0 =>
    let bets1 :=
      match bookmaker with
      | none => bets0
      | some bkm =>
        if bkm = "" then bets0
        else bets0.filter (fun b => b.bookmaker.toLower == bkm.toLower)
    let bets2 :=
      match hoursBefore with
      | none => bets1
      | some _ => bets1.filter (fun b => decide (toDt b.start_time ≤ limitDt))
    let bets3 := edgeMinFilter bets2 edgeMin
    let bets4 := edgeMaxFilter bets3 edgeMax
    .ok ((sortBetsDesc bets4).take 200)

/-! ### Well-formedness of a batch -/

/-- A single outcome is benign for `compute_edges`: its price converts, and
if the converted odds are valid (> 1.0) the outcome has a name (so that
`Bet(...)` does not receive `selection=None`). -/
def outcomeWf (o : Outcome) : Bool :=
  match pyFloatPrice o.price with
  | .error _ => false
  | .ok q => decide (q ≤ 1) || o.name.isSome

/-- The whole event is benign: the sport label resolves to a string (not a
null `sport_key` behind a falsy `sport_title`), every bookmaker title and
market key default-read resolves to a string (not a present null), and
every outcome is benign. -/
def eventWf (ev : Event) : Bool :=
  (pyOrOpt ev.sport_title (getDefault ev.sport_key "Sport")).isSome &&
  ev.bookmakers.all fun bk =>
    (getDefault bk.title "Bookmaker").isSome &&
    bk.markets.all fun mkt =>
      (getDefault mkt.key "h2h").isSome && mkt.outcomes.all outcomeWf

/-- The quote is invalid: its price converts to odds ≤ 1.0 (this includes an
absent or null price, which converts to 0.0). -/
def invalidQuote (o : Outcome) : Bool :=
  match pyFloatPrice o.price with
  | .error _ => false
  | .ok q => decide (q ≤ 1)

/-- Every quote of the event is invalid (odds ≤ 1.0). -/
def allQuotesInvalid (ev : Event) : Bool :=
  ev.bookmakers.all fun bk => bk.markets.all fun mkt => mkt.outcomes.all invalidQuote

/-! ### Concrete inputs used by witnesses and counterexamples -/

/-- A one-quote event with truthy `id` (used as a sanity witness input). -/
def evW10 : Event :=
  { id := some "E10", commence_time := some "2024-06-01T00:00:00+00:00",
    home_team := .str "H", away_team := .str "A",
    sport_title := some "Liga", sport_key := .str "soccer",
    bookmakers := [⟨.str "BK", [⟨.str "h2h", [⟨some "X", .num 2⟩]⟩]⟩] }

/-- The single bet `compute_edges [evW10] "T"` emits. -/
def betW10 : Bet :=
  { event := "H vs A", bookmaker := "BK", market := "h2h", selection := "X",
    odds := 2, edge := 0, sport := "Liga",
    start_time := "2024-06-01T00:00:00+00:00" }

/-- An event with neither `id` nor `commence_time` and one valid quote at
odds 2.0 — the input on which the two passes build different fallback
event identifiers. -/
def evC2 : Event :=
  { id := none, commence_time := none, home_team := .str "A",
    away_team := .str "B", sport_title := none, sport_key := .absent,
    bookmakers := [⟨.str "BK", [⟨.str "h2h", [⟨some "X", .num 2⟩]⟩]⟩] }

/-- The bet the code emits for `evC2` when the clock reads
`"2024-01-01T00:00:00"`. -/
def betC2 : Bet :=
  { event := "A vs B", bookmaker := "BK", market := "h2h", selection := "X",
    odds := 2, edge := -(1 / 2), sport := "Sport",
    start_time := "2024-01-01T00:00:00" }

/-- An event with neither `id` nor `commence_time` and one valid quote at
odds 4.0: its Consensus Key holds exactly one implied probability. -/
def evC4 : Event :=
  { id := none, commence_time := none, home_team := .str "C",
    away_team := .str "D", sport_title := none, sport_key := .absent,
    bookmakers := [⟨.str "BK2", [⟨.str "h2h", [⟨some "Y", .num 4⟩]⟩]⟩] }

/-- The bet the code emits for `evC4` when the clock reads
`"2024-02-02T00:00:00"`. -/
def betC4 : Bet :=
  { event := "C vs D", bookmaker := "BK2", market := "h2h", selection := "Y",
    odds := 4, edge := -(1 / 4), sport := "Sport",
    start_time := "2024-02-02T00:00:00" }

/-- An event whose quotes are all invalid: odds exactly 1.0, and an absent
price (coerced to 0.0). -/
def evC3 : Event :=
  { id := some "E3", commence_time := some "2024-03-01T00:00:00",
    home_team := .str "H3", away_team := .str "A3",
    sport_title := some "L3", sport_key := .absent,
    bookmakers := [⟨.str "BK3", [⟨.str "h2h",
      [⟨some "Z", .num 1⟩, ⟨none, .absent⟩, ⟨some "W", .pynull⟩]⟩]⟩] }

/-- An event with a valid quote but no `commence_time`: the emitted bet's
`start_time` is whatever the clock read during the call. -/
def evC5 : Event :=
  { id := some "E5", commence_time := none, home_team := .str "P",
    away_team := .str "Q", sport_title := some "L5", sport_key := .absent,
    bookmakers := [⟨.str "BK5", [⟨.str "h2h", [⟨some "S", .num 2⟩]⟩]⟩] }

/-- An event with a truthy `commence_time` (clock never consulted). -/
def evW5 : Event :=
  { id := some "E5w", commence_time := some "2024-03-03T00:00:00",
    home_team := .str "P2", away_team := .str "Q2",
    sport_title := some "L5w", sport_key := .absent,
    bookmakers := [⟨.str "BK5w", [⟨.str "h2h", [⟨some "S2", .num 2⟩]⟩]⟩] }

/-- An event carrying a truthy non-numeric price: `float` raises. -/
def evC6 : Event :=
  { id := some "E6", commence_time := some "2024-04-04T00:00:00",
    home_team := .str "H6", away_team := .str "A6",
    sport_title := some "L6", sport_key := .absent,
    bookmakers := [⟨.str "BK6", [⟨.str "h2h", [⟨some "N", .nonNumeric "abc"⟩]⟩]⟩] }

/-- An event with a valid quote whose outcome has no name: `Bet(...)`
raises a pydantic validation error. -/
def evC6b : Event :=
  { id := some "E6b", commence_time := some "2024-04-05T00:00:00",
    home_team := .str "H6b", away_team := .str "A6b",
    sport_title := some "L6b", sport_key := .absent,
    bookmakers := [⟨.str "BK6b", [⟨.str "h2h", [⟨none, .num 2⟩]⟩]⟩] }

/-- An event whose bookmaker `title` is a present JSON null with a valid
quote: `bk.get("title", "Bookmaker")` returns `None` (not the default),
and `Bet(bookmaker=None)` raises a pydantic validation error. -/
def evC6c : Event :=
  { id := some "E6c", commence_time := some "2024-04-07T00:00:00",
    home_team := .str "H6c", away_team := .str "A6c",
    sport_title := some "L6c", sport_key := .absent,
    bookmakers := [⟨.pynull, [⟨.str "h2h", [⟨some "M", .num 2⟩]⟩]⟩] }

/-- A benign event used as the totality witness. -/
def evW6 : Event :=
  { id := some "E6w", commence_time := some "2024-04-06T00:00:00",
    home_team := .str "H6w", away_team := .str "A6w",
    sport_title := some "L6w", sport_key := .absent,
    bookmakers := [⟨.str "BK6w", [⟨.str "h2h", [⟨some "W", .num 3⟩]⟩]⟩] }

/-- Three bookmakers quoting the same selection at odds 2, 20/9 and 5/2:
implied probabilities 1/2, 9/20, 2/5, consensus (median) 9/20, edges
-1/20, 0 and 1/20. -/
def evW7 : Event :=
  { id := some "E7", commence_time := some "2024-05-05T00:00:00",
    home_team := .str "H7", away_team := .str "A7",
    sport_title := some "L7", sport_key := .absent,
    bookmakers :=
      [⟨.str "B1", [⟨.str "h2h", [⟨some "X7", .num 2⟩]⟩]⟩,
       ⟨.str "B2", [⟨.str "h2h", [⟨some "X7", .num (20 / 9)⟩]⟩]⟩,
       ⟨.str "B3", [⟨.str "h2h", [⟨some "X7", .num (5 / 2)⟩]⟩]⟩] }

/-- The only bet of `evW7` surviving `edge_min=5`, `edge_max=10`. -/
def betW7 : Bet :=
  { event := "H7 vs A7", bookmaker := "B3", market := "h2h", selection := "X7",
    odds := 5 / 2, edge := 1 / 20, sport := "L7",
    start_time := "2024-05-05T00:00:00" }

/-- A one-quote event for the `get_bets` ordering/cap witness. -/
def evW8 : Event :=
  { id := some "E8", commence_time := some "2024-07-07T00:00:00",
    home_team := .str "H8", away_team := .str "A8",
    sport_title := some "L8", sport_key := .absent,
    bookmakers := [⟨.str "B8", [⟨.str "h2h", [⟨some "X8", .num 2⟩]⟩]⟩] }

/-- The single bet `get_bets` returns for `[evW8]` with no filters. -/
def betW8 : Bet :=
  { event := "H8 vs A8", bookmaker := "B8", market := "h2h", selection := "X8",
    odds := 2, edge := 0, sport := "L8",
    start_time := "2024-07-07T00:00:00" }

/-! ### Dictionary lemmas -/

theorem dget_dapp_self (m : Imps) (k : Key) (p : ℚ) :
    dget (dapp m k p) k = dget m k ++ [p] := by
  induction m with
  | nil => simp [dget, dapp]
  | cons kv rest ih =>
    by_cases h : k = kv.1
    · simp [dget, dapp, h]
    · simp [dget, dapp, h, ih]

theorem dget_dapp_ne (m : Imps) (k k2 : Key) (p : ℚ) (h : k ≠ k2) :
    dget (dapp m k2 p) k = dget m k := by
  induction m with
  | nil => simp [dget, dapp, h]
  | cons kv rest ih =>
    by_cases h2 : k2 = kv.1
    · have : k ≠ kv.1 := h2 ▸ h
      simp [dget, dapp, h2, this]
    · by_cases h3 : k = kv.1
      · simp [dget, dapp, h2, h3]
      · simp [dget, dapp, h2, h3, ih]

/-! ### Consensus lemmas -/

theorem pysorted_eq_of_sorted_perm (l s : List ℚ) (hs : s.Sorted (· ≤ ·))
    (hp : l.Perm s) : pysorted l = s :=
  List.eq_of_perm_of_sorted ((List.perm_insertionSort _ l).trans hp)
    (List.sorted_insertionSort _ l) hs

theorem getD_mem_of_lt (l : List ℚ) (i : ℕ) (d : ℚ) (h : i < l.length) :
    l.getD i d ∈ l := by
  rw [List.getD_eq_getElem l d h]
  exact List.getElem_mem h

theorem consensus_mem_Ico (l : List ℚ) (h : ∀ p ∈ l, 0 < p ∧ p < 1) :
    0 ≤ consensus l ∧ consensus l < 1 := by
  match l with
  | [] => norm_num [consensus]
  | x :: xs =>
    have hperm : (pysorted (x :: xs)).Perm (x :: xs) := List.perm_insertionSort _ _
    have hmem : ∀ p ∈ pysorted (x :: xs), 0 < p ∧ p < 1 := fun p hp => h p (hperm.mem_iff.mp hp)
    have hlen : 0 < (pysorted (x :: xs)).length := by
      rw [hperm.length_eq]; simp
    rw [consensus, if_neg (by simp)]
    set s := pysorted (x :: xs) with hsdef
    by_cases hodd : s.length % 2 = 1
    · have hin : s.getD (s.length / 2) 0 ∈ s :=
        getD_mem_of_lt _ _ _ (Nat.div_lt_self hlen (by norm_num))
      have := hmem _ hin
      simp only [hodd, if_pos]
      constructor
      · exact le_of_lt this.1
      · exact this.2
    · have hin1 : s.getD (s.length / 2 - 1) 0 ∈ s :=
        getD_mem_of_lt _ _ _ (by omega)
      have hin2 : s.getD (s.length / 2) 0 ∈ s :=
        getD_mem_of_lt _ _ _ (Nat.div_lt_self hlen (by norm_num))
      have h1 := hmem _ hin1
      have h2 := hmem _ hin2
      simp only [hodd, if_neg, if_false]
      constructor
      · nlinarith [h1.1, h2.1]
      · nlinarith [h1.2, h2.2]

/-- **C1.** The `consensus` function computes the median: it returns `0.0`
on the empty list; on a non-empty list whose ascending sorted arrangement
is `s`, it returns the middle element of `s` for an odd count and the
average of the two middle elements for an even count; in particular
`consensus [0.4, 0.5, 0.6] = 0.5` and
`consensus [0.3, 0.5, 0.7, 0.9] = 0.6`. -/
theorem consensus_median_spec :
    consensus [] = 0 ∧
    (∀ l s : List ℚ, l ≠ [] → s.Sorted (· ≤ ·) → l.Perm s →
      consensus l =
        if s.length % 2 = 1 then s.getD (s.length / 2) 0
        else (0.5 : ℚ) * (s.getD (s.length / 2 - 1) 0 + s.getD (s.length / 2) 0)) ∧
    consensus [(0.4 : ℚ), 0.5, 0.6] = 0.5 ∧
    consensus [(0.3 : ℚ), 0.5, 0.7, 0.9] = 0.6 := by
  refine ⟨rfl, ?_, ?_, ?_⟩
  · intro l s hne hs hp
    match l with
    | [] => exact absurd rfl hne
    | x :: xs =>
      rw [consensus, if_neg (by simp), pysorted_eq_of_sorted_perm (x :: xs) s hs hp]
  · norm_num [consensus, pysorted, List.insertionSort, List.orderedInsert, List.getD]
    simp
  · norm_num [consensus, pysorted, List.insertionSort, List.orderedInsert, List.getD]
    simp

/-- Witness for C1: the median of the concrete unsorted list `[0.5, 0.4]`
(even count) is `0.45`. -/
theorem consensus_median_spec_witness : consensus [(0.5 : ℚ), 0.4] = 0.45 := by
  have h := consensus_median_spec.2.1 [(0.5 : ℚ), 0.4] [(0.4 : ℚ), 0.5]
    (by simp) (by norm_num [List.sorted_cons]) (List.Perm.swap _ _ _)
  rw [h]
  norm_num [List.getD]

/-! ### Collection-pass invariant: every collected value is an implied
probability of a valid quote, hence lies in `(0, 1)` -/

theorem collectOutcomes_prob (eid : String) (mk : Option String) :
    ∀ (os : List Outcome) (m m2 : Imps), collectOutcomes eid mk m os = .ok m2 →
      ∀ k p, p ∈ dget m2 k → p ∈ dget m k ∨ (0 < p ∧ p < 1)
  | [], m, m2, h, k, p, hp => by
    rw [collectOutcomes] at h
    cases h
    exact Or.inl hp
  | o :: os, m, m2, h, k, p, hp => by
    rw [collectOutcomes] at h
    cases hq : pyFloatPrice o.price with
    | error e => rw [hq] at h; cases h
    | ok q =>
      rw [hq] at h
      dsimp only at h
      by_cases hle : q ≤ 1
      · rw [if_pos hle] at h
        exact collectOutcomes_prob eid mk os m m2 h k p hp
      · rw [if_neg hle] at h
        rcases collectOutcomes_prob eid mk os _ m2 h k p hp with hl | hr
        · by_cases hk : k = (eid, mk, o.name)
          · subst hk
            rw [dget_dapp_self] at hl
            rcases List.mem_append.mp hl with hl2 | hl2
            · exact Or.inl hl2
            · have hq1 : (1 : ℚ) < q := lt_of_not_ge hle
              have : p = 1 / q := List.mem_singleton.mp hl2
              subst this
              exact Or.inr ⟨by positivity, by rw [div_lt_one (by linarith)]; linarith⟩
          · rw [dget_dapp_ne _ _ _ _ hk] at hl
            exact Or.inl hl
        · exact Or.inr hr

theorem collectMarkets_prob (eid : String) :
    ∀ (mkts : List Market) (m m2 : Imps), collectMarkets eid m mkts = .ok m2 →
      ∀ k p, p ∈ dget m2 k → p ∈ dget m k ∨ (0 < p ∧ p < 1)
  | [], m, m2, h, k, p, hp => by
    rw [collectMarkets] at h
    cases h
    exact Or.inl hp
  | mkt :: mkts, m, m2, h, k, p, hp => by
    rw [collectMarkets] at h
    cases hstep : collectOutcomes eid (getDefault mkt.key "h2h") m mkt.outcomes with
    | error e => rw [hstep] at h; cases h
    | ok m1 =>
      rw [hstep] at h
      rcases collectMarkets_prob eid mkts m1 m2 h k p hp with hl | hr
      · exact collectOutcomes_prob eid _ mkt.outcomes m m1 hstep k p hl
      · exact Or.inr hr

theorem collectBookmakers_prob (eid : String) :
    ∀ (bks : List Bookmaker) (m m2 : Imps), collectBookmakers eid m bks = .ok m2 →
      ∀ k p, p ∈ dget m2 k → p ∈ dget m k ∨ (0 < p ∧ p < 1)
  | [], m, m2, h, k, p, hp => by
    rw [collectBookmakers] at h
    cases h
    exact Or.inl hp
  | bk :: bks, m, m2, h, k, p, hp => by
    rw [collectBookmakers] at h
    cases hstep : collectMarkets eid m bk.markets with
    | error e => rw [hstep] at h; cases h
    | ok m1 =>
      rw [hstep] at h
      rcases collectBookmakers_prob eid bks m1 m2 h k p hp with hl | hr
      · exact collectMarkets_prob eid bk.markets m m1 hstep k p hl
      · exact Or.inr hr

theorem collectEvents_prob :
    ∀ (evs : List Event) (m m2 : Imps), collectEvents m evs = .ok m2 →
      ∀ k p, p ∈ dget m2 k → p ∈ dget m k ∨ (0 < p ∧ p < 1)
  | [], m, m2, h, k, p, hp => by
    rw [collectEvents] at h
    cases h
    exact Or.inl hp
  | ev :: evs, m, m2, h, k, p, hp => by
    rw [collectEvents] at h
    cases hstep : collectEvent m ev with
    | error e => rw [hstep] at h; cases h
    | ok m1 =>
      rw [hstep] at h
      rcases collectEvents_prob evs m1 m2 h k p hp with hl | hr
      · exact collectBookmakers_prob (eventId1 ev) ev.bookmakers m m1 hstep k p hl
      · exact Or.inr hr

/-- Starting from the empty dict, every collected value lies in `(0, 1)`. -/
theorem collectEvents_prob_empty (evs : List Event) (m2 : Imps)
    (h : collectEvents [] evs = .ok m2) (k : Key) (p : ℚ) (hp : p ∈ dget m2 k) :
    0 < p ∧ p < 1 := by
  rcases collectEvents_prob evs [] m2 h k p hp with hl | hr
  · simp [dget] at hl
  · exact hr

/-! ### Emission-pass characterization: every emitted bet's edge is a
consensus over some key of the collected dict minus its own implied
probability, and its odds exceed 1 -/

theorem betValidate_ok (evName : String) (bkName mk sel : Option String)
    (odds edge : ℚ) (sport : Option String) (startT : String) (b : Bet)
    (h : betValidate evName bkName mk sel odds edge sport startT = .ok b) :
    b.odds = odds ∧ b.edge = edge := by
  cases bkName <;> cases mk <;> cases sel <;> cases sport <;> cases h <;> exact ⟨rfl, rfl⟩

theorem betValidate_some (evName bk mkS selS sp : String)
    (odds edge : ℚ) (startT : String) :
    betValidate evName (some bk) (some mkS) (some selS) odds edge (some sp) startT =
      .ok { event := evName, bookmaker := bk, market := mkS, selection := selS,
            odds := odds, edge := edge, sport := sp, start_time := startT } := rfl

theorem emitOutcomes_mem_shape (eid : String) (mk bkName : Option String)
    (evName : String) (sport : Option String) (startT : String) (m : Imps) :
    ∀ (os : List Outcome) (out : List Bet),
      emitOutcomes eid mk bkName evName sport startT m os = .ok out →
      ∀ b ∈ out, ∃ k d, 1 < d ∧ b.odds = d ∧
        b.edge = consensus (dget m k) - 1 / d
  | [], out, h, b, hb => by
    rw [emitOutcomes] at h
    cases h
    cases hb
  | o :: os, out, h, b, hb => by
    rw [emitOutcomes] at h
    cases hq : pyFloatPrice o.price with
    | error e => rw [hq] at h; cases h
    | ok q =>
      rw [hq] at h
      dsimp only at h
      by_cases hle : q ≤ 1
      · rw [if_pos hle] at h
        exact emitOutcomes_mem_shape eid mk bkName evName sport startT m os out h b hb
      · rw [if_neg hle] at h
        cases hv : betValidate evName bkName mk o.name q
            (consensus (dget m (eid, mk, o.name)) - 1 / q) sport startT with
        | error e => rw [hv] at h; cases h
        | ok b0 =>
          rw [hv] at h
          cases hrest : emitOutcomes eid mk bkName evName sport startT m os with
          | error e => rw [hrest] at h; cases h
          | ok rest =>
            rw [hrest] at h
            cases h
            rcases List.mem_cons.mp hb with hb1 | hb2
            · subst hb1
              obtain ⟨ho, he⟩ := betValidate_ok evName bkName mk o.name q _ sport startT b hv
              exact ⟨(eid, mk, o.name), q, lt_of_not_ge hle, ho, he⟩
            · exact emitOutcomes_mem_shape eid mk bkName evName sport startT m os rest hrest b hb2

theorem emitMarkets_mem_shape (eid : String) (bkName : Option String)
    (evName : String) (sport : Option String) (startT : String) (m : Imps) :
    ∀ (mkts : List Market) (out : List Bet),
      emitMarkets eid bkName evName sport startT m mkts = .ok out →
      ∀ b ∈ out, ∃ k d, 1 < d ∧ b.odds = d ∧
        b.edge = consensus (dget m k) - 1 / d
  | [], out, h, b, hb => by
    rw [emitMarkets] at h
    cases h
    cases hb
  | mkt :: mkts, out, h, b, hb => by
    rw [emitMarkets] at h
    cases hbs : emitOutcomes eid (getDefault mkt.key "h2h") bkName evName sport startT m mkt.outcomes with
    | error e => rw [hbs] at h; cases h
    | ok bs =>
      rw [hbs] at h
      cases hrest : emitMarkets eid bkName evName sport startT m mkts with
      | error e => rw [hrest] at h; cases h
      | ok rest =>
        rw [hrest] at h
        cases h
        rcases List.mem_append.mp hb with hb1 | hb2
        · exact emitOutcomes_mem_shape eid _ bkName evName sport startT m mkt.outcomes bs hbs b hb1
        · exact emitMarkets_mem_shape eid bkName evName sport startT m mkts rest hrest b hb2

theorem emitBookmakers_mem_shape (eid evName : String) (sport : Option String)
    (startT : String) (m : Imps) :
    ∀ (bks : List Bookmaker) (out : List Bet),
      emitBookmakers eid evName sport startT m bks = .ok out →
      ∀ b ∈ out, ∃ k d, 1 < d ∧ b.odds = d ∧
        b.edge = consensus (dget m k) - 1 / d
  | [], out, h, b, hb => by
    rw [emitBookmakers] at h
    cases h
    cases hb
  | bk :: bks, out, h, b, hb => by
    rw [emitBookmakers] at h
    cases hbs : emitMarkets eid (getDefault bk.title "Bookmaker") evName sport startT m bk.markets with
    | error e => rw [hbs] at h; cases h
    | ok bs =>
      rw [hbs] at h
      cases hrest : emitBookmakers eid evName sport startT m bks with
      | error e => rw [hrest] at h; cases h
      | ok rest =>
        rw [hrest] at h
        cases h
        rcases List.mem_append.mp hb with hb1 | hb2
        · exact emitMarkets_mem_shape eid _ evName sport startT m bk.markets bs hbs b hb1
        · exact emitBookmakers_mem_shape eid evName sport startT m bks rest hrest b hb2

theorem emitEvents_mem_shape (m : Imps) (now : String) :
    ∀ (evs : List Event) (out : List Bet),
      emitEvents m now evs = .ok out →
      ∀ b ∈ out, ∃ k d, 1 < d ∧ b.odds = d ∧
        b.edge = consensus (dget m k) - 1 / d
  | [], out, h, b, hb => by
    rw [emitEvents] at h
    cases h
    cases hb
  | ev :: evs, out, h, b, hb => by
    rw [emitEvents] at h
    cases hbs : emitEvent m now ev with
    | error e => rw [hbs] at h; cases h
    | ok bs =>
      rw [hbs] at h
      cases hrest : emitEvents m now evs with
      | error e => rw [hrest] at h; cases h
      | ok rest =>
        rw [hrest] at h
        cases h
        rcases List.mem_append.mp hb with hb1 | hb2
        · exact emitBookmakers_mem_shape (eventId2 now ev) _ _ _ m ev.bookmakers bs hbs b hb1
        · exact emitEvents_mem_shape m now evs rest hrest b hb2

/-- **C10.** For every input batch on which `compute_edges` succeeds (all
prices are exact numbers in the model, so "finite" holds by construction),
every emitted bet's edge lies strictly between `-1` and `1`: the bet's own
implied probability lies in `(0, 1)` because its odds exceed `1.0`, and
the consensus it is compared against is either `0.0` (empty key) or a
median of implied probabilities in `(0, 1)`, hence lies in `[0, 1)`. -/
theorem emitted_edge_in_open_interval (evs : List Event) (now : String)
    (out : List Bet) (h : compute_edges evs now = .ok out) :
    ∀ b ∈ out, -1 < b.edge ∧ b.edge < 1 := by
  intro b hb
  rw [compute_edges] at h
  cases hc : collectEvents [] evs with
  | error e => rw [hc] at h; cases h
  | ok m =>
    rw [hc] at h
    obtain ⟨k, d, hd, _, hedge⟩ := emitEvents_mem_shape m now evs out h b hb
    have hcons : 0 ≤ consensus (dget m k) ∧ consensus (dget m k) < 1 :=
      consensus_mem_Ico _ (fun p hp => collectEvents_prob_empty evs m hc k p hp)
    have hinv1 : 0 < 1 / d := by positivity
    have hinv2 : 1 / d < 1 := by rw [div_lt_one (by linarith)]; linarith
    rw [hedge]
    constructor <;> linarith [hcons.1, hcons.2]

/-- Witness for C10 at the one-quote batch `[evW10]`: the emitted bet's
edge lies in `(-1, 1)`. -/
theorem emitted_edge_in_open_interval_witness : -1 < betW10.edge ∧ betW10.edge < 1 :=
  emitted_edge_in_open_interval [evW10] "T" [betW10]
    (by
      have hvs : "H" ++ " vs " ++ "A" = "H vs A" := by decide
      have hE : ("E10" : String) ≠ "" := by decide
      have hL : ("Liga" : String) ≠ "" := by decide
      have hC : ("2024-06-01T00:00:00+00:00" : String) ≠ "" := by decide
      norm_num [compute_edges, collectEvents, collectEvent, collectBookmakers,
        collectMarkets, collectOutcomes, emitEvents, emitEvent, emitBookmakers,
        emitMarkets, emitOutcomes, eventId1, eventId2, startTime, pyOrS, pyOrOpt, strRepr, pyRepr, getDefault, betValidate,
        pyFloatPrice, dapp, dget, consensus, pysorted, evW10, betW10, List.getD,
        hvs, hE, hL, hC])
    betW10 (by simp)

/-- **C2 (failing input).** For the event `evC2` (no `id`, no
`commence_time`, one valid quote at odds 2.0) the collection pass stores
the quote's implied probability `1/2` under the key
`("A|B|None", "h2h", "X")` — the fallback identifier interpolates the raw
absent `commence_time` as `"None"` — while the emission pass looks up
`("A|B|2024-01-01T00:00:00", "h2h", "X")`, whose collected list is empty.
The emitted bet therefore gets the empty-list consensus `0.0` and edge
`-1/2`, although the consensus of all quotes sharing its Consensus Key
(including its own) is `1/2`, which would give edge `0`. -/
theorem collection_emission_key_mismatch :
    collectEvents [] [evC2] = .ok [(("A|B|None", some "h2h", some "X"), [1 / 2])] ∧
    dget [(("A|B|None", some "h2h", some "X"), [1 / 2])]
      ("A|B|2024-01-01T00:00:00", some "h2h", some "X") = [] ∧
    compute_edges [evC2] "2024-01-01T00:00:00" = .ok [betC2] ∧
    betC2.edge = -(1 / 2) ∧
    consensus [1 / 2] - 1 / 2 = 0 := by
  have h1 : "A" ++ "|" ++ "B" ++ "|" ++ "None" = "A|B|None" := by decide
  have h2 : "A" ++ "|" ++ "B" ++ "|" ++ "2024-01-01T00:00:00" = "A|B|2024-01-01T00:00:00" := by
    decide
  have h3 : ("A|B|2024-01-01T00:00:00" : String) ≠ "A|B|None" := by decide
  have h4 : "A" ++ " vs " ++ "B" = "A vs B" := by decide
  refine ⟨?_, ?_, ?_, rfl, ?_⟩
  · norm_num [collectEvents, collectEvent, collectBookmakers, collectMarkets,
      collectOutcomes, eventId1, pyOrS, strRepr, pyRepr, getDefault, pyFloatPrice, dapp, evC2, h1]
  · norm_num [dget, h3]
  · norm_num [compute_edges, collectEvents, collectEvent, collectBookmakers,
      collectMarkets, collectOutcomes, emitEvents, emitEvent, emitBookmakers,
      emitMarkets, emitOutcomes, eventId1, eventId2, startTime, pyOrS, pyOrOpt, strRepr, pyRepr, getDefault, betValidate,
      pyFloatPrice, dapp, dget, consensus, pysorted, evC2, betC2, List.getD,
      h1, h2, h3, h4]
  · norm_num [consensus, pysorted, List.insertionSort, List.orderedInsert, List.getD]

/-- **C4 (failing input).** For the event `evC4` (no `id`, no
`commence_time`, a single valid quote at odds 4.0), the Consensus Key
`("C|D|None", "h2h", "Y")` holds exactly one implied probability, yet the
bet emitted for that quote has edge `-1/4 ≠ 0`: the emission pass looks
up a different key (built with the clock fallback) and compares against
the empty-list consensus instead of the quote's own singleton. -/
theorem singleton_key_nonzero_edge :
    collectEvents [] [evC4] = .ok [(("C|D|None", some "h2h", some "Y"), [1 / 4])] ∧
    (dget [(("C|D|None", some "h2h", some "Y"), [1 / 4])] ("C|D|None", some "h2h", some "Y")).length = 1 ∧
    compute_edges [evC4] "2024-02-02T00:00:00" = .ok [betC4] ∧
    betC4.edge ≠ 0 := by
  have h1 : "C" ++ "|" ++ "D" ++ "|" ++ "None" = "C|D|None" := by decide
  have h2 : "C" ++ "|" ++ "D" ++ "|" ++ "2024-02-02T00:00:00" = "C|D|2024-02-02T00:00:00" := by
    decide
  have h3 : ("C|D|2024-02-02T00:00:00" : String) ≠ "C|D|None" := by decide
  have h4 : "C" ++ " vs " ++ "D" = "C vs D" := by decide
  refine ⟨?_, ?_, ?_, ?_⟩
  · norm_num [collectEvents, collectEvent, collectBookmakers, collectMarkets,
      collectOutcomes, eventId1, pyOrS, strRepr, pyRepr, getDefault, pyFloatPrice, dapp, evC4, h1]
  · norm_num [dget]
  · norm_num [compute_edges, collectEvents, collectEvent, collectBookmakers,
      collectMarkets, collectOutcomes, emitEvents, emitEvent, emitBookmakers,
      emitMarkets, emitOutcomes, eventId1, eventId2, startTime, pyOrS, pyOrOpt, strRepr, pyRepr, getDefault, betValidate,
      pyFloatPrice, dapp, dget, consensus, pysorted, evC4, betC4, List.getD,
      h1, h2, h3, h4]
  · norm_num [betC4]

/-! ### Invalid quotes are skipped by both passes -/

theorem collectOutcomes_of_invalid (eid : String) (mk : Option String) :
    ∀ (os : List Outcome) (m : Imps), os.all invalidQuote = true →
      collectOutcomes eid mk m os = .ok m
  | [], m, _ => by rw [collectOutcomes]
  | o :: os, m, h => by
    rw [List.all_cons, Bool.and_eq_true] at h
    cases hq : pyFloatPrice o.price with
    | error e =>
      have h1 := h.1
      simp [invalidQuote, hq] at h1
    | ok q =>
      have h1 := h.1
      simp only [invalidQuote, hq, decide_eq_true_eq] at h1
      rw [collectOutcomes, hq]
      dsimp only
      rw [if_pos h1]
      exact collectOutcomes_of_invalid eid mk os m h.2

theorem collectMarkets_of_invalid (eid : String) :
    ∀ (mkts : List Market) (m : Imps),
      (mkts.all fun mkt => mkt.outcomes.all invalidQuote) = true →
      collectMarkets eid m mkts = .ok m
  | [], m, _ => by rw [collectMarkets]
  | mkt :: mkts, m, h => by
    rw [List.all_cons, Bool.and_eq_true] at h
    rw [collectMarkets, collectOutcomes_of_invalid eid _ mkt.outcomes m h.1]
    exact collectMarkets_of_invalid eid mkts m h.2

theorem collectBookmakers_of_invalid (eid : String) :
    ∀ (bks : List Bookmaker) (m : Imps),
      (bks.all fun bk => bk.markets.all fun mkt => mkt.outcomes.all invalidQuote) = true →
      collectBookmakers eid m bks = .ok m
  | [], m, _ => by rw [collectBookmakers]
  | bk :: bks, m, h => by
    rw [List.all_cons, Bool.and_eq_true] at h
    rw [collectBookmakers, collectMarkets_of_invalid eid bk.markets m h.1]
    exact collectBookmakers_of_invalid eid bks m h.2

theorem collectEvent_of_invalid (m : Imps) (ev : Event)
    (h : allQuotesInvalid ev = true) : collectEvent m ev = .ok m := by
  rw [collectEvent]
  exact collectBookmakers_of_invalid (eventId1 ev) ev.bookmakers m h

theorem emitOutcomes_of_invalid (eid : String) (mk bkName : Option String)
    (evName : String) (sport : Option String) (startT : String) (m : Imps) :
    ∀ os : List Outcome, os.all invalidQuote = true →
      emitOutcomes eid mk bkName evName sport startT m os = .ok []
  | [], _ => by rw [emitOutcomes]
  | o :: os, h => by
    rw [List.all_cons, Bool.and_eq_true] at h
    cases hq : pyFloatPrice o.price with
    | error e =>
      have h1 := h.1
      simp [invalidQuote, hq] at h1
    | ok q =>
      have h1 := h.1
      simp only [invalidQuote, hq, decide_eq_true_eq] at h1
      rw [emitOutcomes, hq]
      dsimp only
      rw [if_pos h1]
      exact emitOutcomes_of_invalid eid mk bkName evName sport startT m os h.2

theorem emitMarkets_of_invalid (eid : String) (bkName : Option String)
    (evName : String) (sport : Option String) (startT : String) (m : Imps) :
    ∀ mkts : List Market,
      (mkts.all fun mkt => mkt.outcomes.all invalidQuote) = true →
      emitMarkets eid bkName evName sport startT m mkts = .ok []
  | [], _ => by rw [emitMarkets]
  | mkt :: mkts, h => by
    rw [List.all_cons, Bool.and_eq_true] at h
    rw [emitMarkets, emitOutcomes_of_invalid eid _ bkName evName sport startT m mkt.outcomes h.1,
      emitMarkets_of_invalid eid bkName evName sport startT m mkts h.2]
    rfl

theorem emitBookmakers_of_invalid (eid evName : String) (sport : Option String)
    (startT : String) (m : Imps) :
    ∀ bks : List Bookmaker,
      (bks.all fun bk => bk.markets.all fun mkt => mkt.outcomes.all invalidQuote) = true →
      emitBookmakers eid evName sport startT m bks = .ok []
  | [], _ => by rw [emitBookmakers]
  | bk :: bks, h => by
    rw [List.all_cons, Bool.and_eq_true] at h
    rw [emitBookmakers, emitMarkets_of_invalid eid _ evName sport startT m bk.markets h.1,
      emitBookmakers_of_invalid eid evName sport startT m bks h.2]
    rfl

theorem emitEvent_of_invalid (m : Imps) (now : String) (ev : Event)
    (h : allQuotesInvalid ev = true) : emitEvent m now ev = .ok [] := by
  rw [emitEvent]
  exact emitBookmakers_of_invalid _ _ _ _ m ev.bookmakers h

/-- **C3.** Quotes whose odds convert to a value ≤ 1.0 (including absent
odds, coerced to 0.0) are skipped by both passes: dropping such a leading
quote changes neither the collection pass (its implied probability is
never added to any Consensus Key) nor the emission pass (no Bet record is
emitted for it); consequently an event all of whose quotes are invalid
leaves the collection dict unchanged and contributes zero Bet records, and
a batch consisting of such an event produces the empty output. -/
theorem invalid_quotes_skipped :
    (∀ (eid : String) (mk : Option String) (m : Imps) (o : Outcome)
      (os : List Outcome) (q : ℚ),
      pyFloatPrice o.price = .ok q → q ≤ 1 →
      collectOutcomes eid mk m (o :: os) = collectOutcomes eid mk m os) ∧
    (∀ (eid : String) (mk bkName : Option String) (evName : String)
      (sport : Option String) (startT : String) (m : Imps) (o : Outcome)
      (os : List Outcome) (q : ℚ),
      pyFloatPrice o.price = .ok q → q ≤ 1 →
      emitOutcomes eid mk bkName evName sport startT m (o :: os) =
        emitOutcomes eid mk bkName evName sport startT m os) ∧
    (∀ (ev : Event) (m : Imps) (now : String), allQuotesInvalid ev = true →
      collectEvent m ev = .ok m ∧ emitEvent m now ev = .ok []) ∧
    (∀ (ev : Event) (now : String), allQuotesInvalid ev = true →
      compute_edges [ev] now = .ok []) := by
  refine ⟨?_, ?_, ?_, ?_⟩
  · intro eid mk m o os q hq hle
    rw [collectOutcomes, hq]
    dsimp only
    rw [if_pos hle]
  · intro eid mk bkName evName sport startT m o os q hq hle
    rw [emitOutcomes, hq]
    dsimp only
    rw [if_pos hle]
  · intro ev m now h
    exact ⟨collectEvent_of_invalid m ev h, emitEvent_of_invalid m now ev h⟩
  · intro ev now h
    have hc : collectEvents [] [ev] = .ok [] := by
      rw [collectEvents, collectEvent_of_invalid [] ev h]
      rfl
    have he : emitEvents [] now [ev] = .ok [] := by
      rw [emitEvents, emitEvent_of_invalid [] now ev h]
      rfl
    rw [compute_edges, hc]
    exact he

/-- Witness for C3: the all-invalid event `evC3` (odds 1.0, absent price,
null price) contributes zero bets. -/
theorem invalid_quotes_skipped_witness : compute_edges [evC3] "T3" = .ok [] :=
  invalid_quotes_skipped.2.2.2 evC3 "T3"
    (by norm_num [allQuotesInvalid, invalidQuote, pyFloatPrice, evC3])

/-! ### Clock (in)dependence of `compute_edges` -/

/-- **C5 (counterexample).** `compute_edges` is not a pure function of its
input alone: on the event `evC5`, whose `commence_time` is absent, the
emitted bet's `start_time` is the clock reading
(`datetime.utcnow().isoformat()`), so two invocations on the same input
with different clock readings produce different outputs. -/
theorem compute_edges_clock_dependent :
    compute_edges [evC5] "2024-01-01T00:00:00" ≠ compute_edges [evC5] "2025-01-01T00:00:00" := by
  have hvs : "P" ++ " vs " ++ "Q" = "P vs Q" := by decide
  have hE : ("E5" : String) ≠ "" := by decide
  have hL : ("L5" : String) ≠ "" := by decide
  have e1 : compute_edges [evC5] "2024-01-01T00:00:00" =
      .ok [{ event := "P vs Q", bookmaker := "BK5", market := "h2h", selection := "S",
             odds := 2, edge := 0, sport := "L5",
             start_time := "2024-01-01T00:00:00" }] := by
    norm_num [compute_edges, collectEvents, collectEvent, collectBookmakers,
      collectMarkets, collectOutcomes, emitEvents, emitEvent, emitBookmakers,
      emitMarkets, emitOutcomes, eventId1, eventId2, startTime, pyOrS, pyOrOpt, strRepr, pyRepr, getDefault, betValidate,
      pyFloatPrice, dapp, dget, consensus, pysorted, evC5, List.getD, hvs, hE, hL]
  have e2 : compute_edges [evC5] "2025-01-01T00:00:00" =
      .ok [{ event := "P vs Q", bookmaker := "BK5", market := "h2h", selection := "S",
             odds := 2, edge := 0, sport := "L5",
             start_time := "2025-01-01T00:00:00" }] := by
    norm_num [compute_edges, collectEvents, collectEvent, collectBookmakers,
      collectMarkets, collectOutcomes, emitEvents, emitEvent, emitBookmakers,
      emitMarkets, emitOutcomes, eventId1, eventId2, startTime, pyOrS, pyOrOpt, strRepr, pyRepr, getDefault, betValidate,
      pyFloatPrice, dapp, dget, consensus, pysorted, evC5, List.getD, hvs, hE, hL]
  rw [e1, e2]
  simp

theorem startTime_indep (n1 n2 : String) (ev : Event)
    (h : pyTruthy ev.commence_time = true) : startTime n1 ev = startTime n2 ev := by
  cases hc : ev.commence_time with
  | none => rw [hc] at h; simp [pyTruthy] at h
  | some s =>
    rw [hc] at h
    simp only [pyTruthy, Bool.not_eq_eq_eq_not, Bool.not_false, beq_iff_eq] at h
    have hs : ¬s = "" := by
      intro he
      rw [he] at h
      simp at h
    simp [startTime, pyOrS, hc, hs]

theorem eventId2_indep (n1 n2 : String) (ev : Event)
    (h : pyTruthy ev.commence_time = true) : eventId2 n1 ev = eventId2 n2 ev := by
  rw [eventId2, eventId2, startTime_indep n1 n2 ev h]

theorem emitEvent_indep (m : Imps) (n1 n2 : String) (ev : Event)
    (h : pyTruthy ev.commence_time = true) : emitEvent m n1 ev = emitEvent m n2 ev := by
  rw [emitEvent, emitEvent, startTime_indep n1 n2 ev h, eventId2_indep n1 n2 ev h]

theorem emitEvents_indep (m : Imps) (n1 n2 : String) :
    ∀ evs : List Event, (∀ ev ∈ evs, pyTruthy ev.commence_time = true) →
      emitEvents m n1 evs = emitEvents m n2 evs
  | [], _ => by rw [emitEvents, emitEvents]
  | ev :: evs, h => by
    have h1 := h ev (List.mem_cons_self ev evs)
    have h2 : ∀ e ∈ evs, pyTruthy e.commence_time = true :=
      fun e he => h e (List.mem_cons_of_mem ev he)
    rw [emitEvents, emitEvents, emitEvent_indep m n1 n2 ev h1,
      emitEvents_indep m n1 n2 evs h2]

/-- **C5 (amended).** `compute_edges` is a pure function of its input and
the clock reading: the collection pass never reads the clock, and when
every event carries a present, non-empty `commence_time` the emission pass
does not either, so the output is then independent of the clock. -/
theorem compute_edges_clock_independent (evs : List Event) (n1 n2 : String)
    (h : ∀ ev ∈ evs, pyTruthy ev.commence_time = true) :
    compute_edges evs n1 = compute_edges evs n2 := by
  rw [compute_edges, compute_edges]
  cases hc : collectEvents [] evs with
  | error e => rfl
  | ok m => exact emitEvents_indep m n1 n2 evs h

/-- Witness for the amended C5: on `evW5` (truthy `commence_time`) the
output does not depend on the clock reading. -/
theorem compute_edges_clock_independent_witness :
    compute_edges [evW5] "TA" = compute_edges [evW5] "TB" :=
  compute_edges_clock_independent [evW5] "TA" "TB" (by decide)

/-! ### Error behaviour of `compute_edges` on malformed records -/

/-- **C6 (counterexample).** `compute_edges` does not return normally on
every batch: a truthy non-numeric price makes `float` raise `ValueError`
(event `evC6`); a valid quote whose outcome lacks a name makes `Bet(...)`
raise a pydantic validation error for `selection=None` (event `evC6b`);
and a present-but-null bookmaker `title` behind a valid quote makes
`Bet(...)` raise for `bookmaker=None`, because `bk.get("title",
"Bookmaker")` substitutes the default only for an absent key (event
`evC6c`).  None of these malformed fields is coerced to a safe default. -/
theorem compute_edges_error_on_malformed :
    compute_edges [evC6] "T6" =
      .error "ValueError: could not convert string to float: abc" ∧
    compute_edges [evC6b] "T6b" =
      .error "ValidationError: none is not an allowed value for a Bet string field" ∧
    compute_edges [evC6c] "T6c" =
      .error "ValidationError: none is not an allowed value for a Bet string field" := by
  have hmsg : "ValueError: could not convert string to float: " ++ "abc" =
      "ValueError: could not convert string to float: abc" := by decide
  refine ⟨?_, ?_, ?_⟩
  · norm_num [compute_edges, collectEvents, collectEvent, collectBookmakers,
      collectMarkets, collectOutcomes, eventId1, pyOrS, strRepr, pyRepr, getDefault, pyFloatPrice,
      evC6, hmsg]
  · norm_num [compute_edges, collectEvents, collectEvent, collectBookmakers,
      collectMarkets, collectOutcomes, emitEvents, emitEvent, emitBookmakers,
      emitMarkets, emitOutcomes, eventId1, eventId2, startTime, pyOrS, pyOrOpt, strRepr, pyRepr, getDefault, betValidate,
      pyFloatPrice, dapp, dget, consensus, pysorted, evC6b, List.getD]
  · norm_num [compute_edges, collectEvents, collectEvent, collectBookmakers,
      collectMarkets, collectOutcomes, emitEvents, emitEvent, emitBookmakers,
      emitMarkets, emitOutcomes, eventId1, eventId2, startTime, pyOrS, pyOrOpt, strRepr, pyRepr, getDefault, betValidate,
      pyFloatPrice, dapp, dget, consensus, pysorted, evC6c, List.getD]

theorem collectOutcomes_total (eid : String) (mk : Option String) :
    ∀ (os : List Outcome) (m : Imps), os.all outcomeWf = true →
      ∃ m2, collectOutcomes eid mk m os = .ok m2
  | [], m, _ => ⟨m, by rw [collectOutcomes]⟩
  | o :: os, m, h => by
    rw [List.all_cons, Bool.and_eq_true] at h
    cases hq : pyFloatPrice o.price with
    | error e =>
      have h1 := h.1
      simp [outcomeWf, hq] at h1
    | ok q =>
      by_cases hle : q ≤ 1
      · obtain ⟨m2, hm2⟩ := collectOutcomes_total eid mk os m h.2
        exact ⟨m2, by rw [collectOutcomes, hq]; dsimp only; rw [if_pos hle]; exact hm2⟩
      · obtain ⟨m2, hm2⟩ :=
          collectOutcomes_total eid mk os (dapp m (eid, mk, o.name) (1 / q)) h.2
        exact ⟨m2, by rw [collectOutcomes, hq]; dsimp only; rw [if_neg hle]; exact hm2⟩

theorem collectMarkets_total (eid : String) :
    ∀ (mkts : List Market) (m : Imps),
      (mkts.all fun mkt =>
        (getDefault mkt.key "h2h").isSome && mkt.outcomes.all outcomeWf) = true →
      ∃ m2, collectMarkets eid m mkts = .ok m2
  | [], m, _ => ⟨m, by rw [collectMarkets]⟩
  | mkt :: mkts, m, h => by
    simp only [List.all_cons, Bool.and_eq_true] at h
    obtain ⟨m1, hm1⟩ := collectOutcomes_total eid (getDefault mkt.key "h2h") mkt.outcomes m h.1.2
    obtain ⟨m2, hm2⟩ := collectMarkets_total eid mkts m1 h.2
    exact ⟨m2, by rw [collectMarkets, hm1]; exact hm2⟩

theorem collectBookmakers_total (eid : String) :
    ∀ (bks : List Bookmaker) (m : Imps),
      (bks.all fun bk =>
        (getDefault bk.title "Bookmaker").isSome &&
        bk.markets.all fun mkt =>
          (getDefault mkt.key "h2h").isSome && mkt.outcomes.all outcomeWf) = true →
      ∃ m2, collectBookmakers eid m bks = .ok m2
  | [], m, _ => ⟨m, by rw [collectBookmakers]⟩
  | bk :: bks, m, h => by
    simp only [List.all_cons, Bool.and_eq_true] at h
    obtain ⟨m1, hm1⟩ := collectMarkets_total eid bk.markets m h.1.2
    obtain ⟨m2, hm2⟩ := collectBookmakers_total eid bks m1 h.2
    exact ⟨m2, by rw [collectBookmakers, hm1]; exact hm2⟩

theorem collectEvents_total :
    ∀ (evs : List Event) (m : Imps), (∀ ev ∈ evs, eventWf ev = true) →
      ∃ m2, collectEvents m evs = .ok m2
  | [], m, _ => ⟨m, by rw [collectEvents]⟩
  | ev :: evs, m, h => by
    have h1 := h ev (List.mem_cons_self ev evs)
    rw [eventWf, Bool.and_eq_true] at h1
    obtain ⟨m1, hm1⟩ := collectBookmakers_total (eventId1 ev) ev.bookmakers m h1.2
    obtain ⟨m2, hm2⟩ :=
      collectEvents_total evs m1 (fun e he => h e (List.mem_cons_of_mem ev he))
    exact ⟨m2, by rw [collectEvents, collectEvent, hm1]; exact hm2⟩

theorem emitOutcomes_total (eid : String) (mk bkName : Option String)
    (evName : String) (sport : Option String) (startT : String) (m : Imps)
    (hmk : mk.isSome = true) (hbk : bkName.isSome = true) (hsp : sport.isSome = true) :
    ∀ os : List Outcome, os.all outcomeWf = true →
      ∃ out, emitOutcomes eid mk bkName evName sport startT m os = .ok out
  | [], _ => ⟨[], by rw [emitOutcomes]⟩
  | o :: os, h => by
    rw [List.all_cons, Bool.and_eq_true] at h
    cases hq : pyFloatPrice o.price with
    | error e =>
      have h1 := h.1
      simp [outcomeWf, hq] at h1
    | ok q =>
      by_cases hle : q ≤ 1
      · obtain ⟨out, hout⟩ :=
          emitOutcomes_total eid mk bkName evName sport startT m hmk hbk hsp os h.2
        exact ⟨out, by rw [emitOutcomes, hq]; dsimp only; rw [if_pos hle]; exact hout⟩
      · have h1 := h.1
        simp only [outcomeWf, hq, Bool.or_eq_true, decide_eq_true_eq] at h1
        rcases h1 with h1 | h1
        · exact absurd h1 hle
        · obtain ⟨mkS, hmkS⟩ := Option.isSome_iff_exists.mp hmk
          obtain ⟨bkS, hbkS⟩ := Option.isSome_iff_exists.mp hbk
          obtain ⟨spS, hspS⟩ := Option.isSome_iff_exists.mp hsp
          obtain ⟨selS, hselS⟩ := Option.isSome_iff_exists.mp h1
          subst hmkS
          subst hbkS
          subst hspS
          obtain ⟨rest, hrest⟩ :=
            emitOutcomes_total eid (some mkS) (some bkS) evName (some spS) startT m
              rfl rfl rfl os h.2
          refine ⟨{ event := evName, bookmaker := bkS, market := mkS,
                    selection := selS, odds := q,
                    edge := consensus (dget m (eid, some mkS, some selS)) - 1 / q,
                    sport := spS, start_time := startT } :: rest, ?_⟩
          rw [emitOutcomes, hq]
          dsimp only
          rw [if_neg hle, hselS, betValidate_some, hrest]

theorem emitMarkets_total (eid : String) (bkName : Option String) (evName : String)
    (sport : Option String) (startT : String) (m : Imps)
    (hbk : bkName.isSome = true) (hsp : sport.isSome = true) :
    ∀ mkts : List Market,
      (mkts.all fun mkt =>
        (getDefault mkt.key "h2h").isSome && mkt.outcomes.all outcomeWf) = true →
      ∃ out, emitMarkets eid bkName evName sport startT m mkts = .ok out
  | [], _ => ⟨[], by rw [emitMarkets]⟩
  | mkt :: mkts, h => by
    simp only [List.all_cons, Bool.and_eq_true] at h
    obtain ⟨bs, hbs⟩ :=
      emitOutcomes_total eid (getDefault mkt.key "h2h") bkName evName sport startT m
        h.1.1 hbk hsp mkt.outcomes h.1.2
    obtain ⟨rest, hrest⟩ :=
      emitMarkets_total eid bkName evName sport startT m hbk hsp mkts h.2
    exact ⟨bs ++ rest, by rw [emitMarkets, hbs]; dsimp only; rw [hrest]⟩

theorem emitBookmakers_total (eid evName : String) (sport : Option String)
    (startT : String) (m : Imps) (hsp : sport.isSome = true) :
    ∀ bks : List Bookmaker,
      (bks.all fun bk =>
        (getDefault bk.title "Bookmaker").isSome &&
        bk.markets.all fun mkt =>
          (getDefault mkt.key "h2h").isSome && mkt.outcomes.all outcomeWf) = true →
      ∃ out, emitBookmakers eid evName sport startT m bks = .ok out
  | [], _ => ⟨[], by rw [emitBookmakers]⟩
  | bk :: bks, h => by
    simp only [List.all_cons, Bool.and_eq_true] at h
    obtain ⟨bs, hbs⟩ :=
      emitMarkets_total eid (getDefault bk.title "Bookmaker") evName sport startT m
        h.1.1 hsp bk.markets h.1.2
    obtain ⟨rest, hrest⟩ := emitBookmakers_total eid evName sport startT m hsp bks h.2
    exact ⟨bs ++ rest, by rw [emitBookmakers, hbs]; dsimp only; rw [hrest]⟩

theorem emitEvents_total (m : Imps) (now : String) :
    ∀ evs : List Event, (∀ ev ∈ evs, eventWf ev = true) →
      ∃ out, emitEvents m now evs = .ok out
  | [], _ => ⟨[], by rw [emitEvents]⟩
  | ev :: evs, h => by
    have h1 := h ev (List.mem_cons_self ev evs)
    rw [eventWf, Bool.and_eq_true] at h1
    obtain ⟨bs, hbs⟩ :=
      emitBookmakers_total (eventId2 now ev) _ _ _ m h1.1 ev.bookmakers h1.2
    obtain ⟨rest, hrest⟩ :=
      emitEvents_total m now evs (fun e he => h e (List.mem_cons_of_mem ev he))
    exact ⟨bs ++ rest, by rw [emitEvents, emitEvent, hbs]; dsimp only; rw [hrest]⟩

/-- **C6 (amended).** On batches whose records are benign — every price
converts (absent and null prices are coerced to 0.0 and then filtered out
as ≤ 1.0), every outcome with valid odds carries a name, and no
default-read string field (`mkt.get("key","h2h")`,
`bk.get("title","Bookmaker")`, the sport label) is a present JSON null —
`compute_edges` returns normally.  (The counterexample shows raising
batches of each malformed-field shape: a truthy non-numeric price, a
missing selection name, and a null default-read field.) -/
theorem compute_edges_total_on_wf (evs : List Event) (now : String)
    (h : ∀ ev ∈ evs, eventWf ev = true) :
    ∃ out, compute_edges evs now = .ok out := by
  obtain ⟨m, hm⟩ := collectEvents_total evs [] h
  obtain ⟨out, hout⟩ := emitEvents_total m now evs h
  exact ⟨out, by rw [compute_edges, hm]; exact hout⟩

/-- Witness for the amended C6: the benign batch `[evW6]` (and also one
with an absent price) computes without error. -/
theorem compute_edges_total_on_wf_witness :
    ∃ out, compute_edges [evW6] "T6w" = .ok out :=
  compute_edges_total_on_wf [evW6] "T6w"
    (by
      have hL : ("L6w" : String) ≠ "" := by decide
      norm_num [eventWf, outcomeWf, pyFloatPrice, getDefault, pyOrOpt, evW6, hL])

/-! ### `get_bets` filtering, ordering and cap -/

theorem sortBetsDesc_perm (l : List Bet) : (sortBetsDesc l).Perm l :=
  List.perm_insertionSort edgeGe l

/-- **C7.** The `edge_min`/`edge_max` percentages are interpreted as the
fractional thresholds `e/100`: the `edge_min` filter retains exactly the
bets with `edge ≥ e/100`, the `edge_max` filter exactly those with
`edge ≤ e/100`, and a `get_bets` request with `edge_min=5`, `edge_max=10`
only returns bets whose edge lies in `[0.05, 0.10]`. -/
theorem edge_filters_threshold :
    (∀ (bets : List Bet) (e : ℚ) (b : Bet),
      b ∈ edgeMinFilter bets (some e) ↔ b ∈ bets ∧ e / 100 ≤ b.edge) ∧
    (∀ (bets : List Bet) (e : ℚ) (b : Bet),
      b ∈ edgeMaxFilter bets (some e) ↔ b ∈ bets ∧ b.edge ≤ e / 100) ∧
    (∀ (events : List Event) (now : String) (toDt : String → ℚ) (limitDt : ℚ)
      (bookmaker : Option String) (hoursBefore : Option ℚ) (out : List Bet),
      get_bets events now toDt limitDt bookmaker hoursBefore (some 5) (some 10) = .ok out →
      ∀ b ∈ out, (1 : ℚ) / 20 ≤ b.edge ∧ b.edge ≤ 1 / 10) := by
  refine ⟨?_, ?_, ?_⟩
  · intro bets e b
    simp [edgeMinFilter, List.mem_filter]
  · intro bets e b
    simp [edgeMaxFilter, List.mem_filter]
  · intro events now toDt limitDt bookmaker hoursBefore out h b hb
    rw [get_bets] at h
    cases hce : compute_edges events now with
    | error e => rw [hce] at h; cases h
    | ok bets0 =>
      rw [hce] at h
      dsimp only at h
      injection h with h2
      subst h2
      have hb2 : b ∈ sortBetsDesc (edgeMaxFilter (edgeMinFilter _ (some 5)) (some 10)) :=
        List.take_subset _ _ hb
      have hb3 := (sortBetsDesc_perm _).mem_iff.mp hb2
      rw [edgeMaxFilter] at hb3
      have hmax := List.mem_filter.mp hb3
      have hb4 := hmax.1
      rw [edgeMinFilter] at hb4
      have hmin := List.mem_filter.mp hb4
      have hx : (5 : ℚ) / 100 ≤ b.edge := by
        have := hmin.2
        simpa using this
      have hy : b.edge ≤ (10 : ℚ) / 100 := by
        have := hmax.2
        simpa using this
      constructor <;> linarith

/-- Witness for C7: in the three-bookmaker scenario `evW7` with
`edge_min=5` and `edge_max=10`, the surviving bet's edge lies between
`0.05` and `0.10`. -/
theorem edge_filters_threshold_witness :
    (1 : ℚ) / 20 ≤ betW7.edge ∧ betW7.edge ≤ 1 / 10 :=
  edge_filters_threshold.2.2 [evW7] "T7" (fun _ => 0) 0 none none [betW7]
    (by
      have hvs : "H7" ++ " vs " ++ "A7" = "H7 vs A7" := by decide
      have hE : ("E7" : String) ≠ "" := by decide
      have hL : ("L7" : String) ≠ "" := by decide
      have hC : ("2024-05-05T00:00:00" : String) ≠ "" := by decide
      have hce : compute_edges [evW7] "T7" =
          .ok [{ event := "H7 vs A7", bookmaker := "B1", market := "h2h",
                 selection := "X7", odds := 2, edge := -(1 / 20), sport := "L7",
                 start_time := "2024-05-05T00:00:00" },
               { event := "H7 vs A7", bookmaker := "B2", market := "h2h",
                 selection := "X7", odds := 20 / 9, edge := 0, sport := "L7",
                 start_time := "2024-05-05T00:00:00" },
               betW7] := by
        have hno : (([1 / 2, 9 / 20, 2 / 5] : List ℚ) = []) = False := by simp
        norm_num [hno, compute_edges, collectEvents, collectEvent,
          collectBookmakers, collectMarkets, collectOutcomes, emitEvents, emitEvent,
          emitBookmakers, emitMarkets, emitOutcomes, eventId1, eventId2, startTime,
          pyOrS, pyOrOpt, strRepr, pyRepr, getDefault, betValidate, pyFloatPrice, dapp, dget, consensus, pysorted,
          List.insertionSort, List.orderedInsert, List.getD, evW7, betW7,
          hvs, hE, hL, hC]
      rw [get_bets, hce]
      dsimp only
      have d1 : decide ((5 : ℚ) / 100 ≤ -(1 / 20)) = false := by norm_num
      have d2 : decide ((5 : ℚ) / 100 ≤ (0 : ℚ)) = false := by norm_num
      have d3 : decide ((5 : ℚ) / 100 ≤ (1 / 20 : ℚ)) = true := by norm_num
      have d4 : decide ((1 / 20 : ℚ) ≤ (10 : ℚ) / 100) = true := by norm_num
      simp only [edgeMinFilter, edgeMaxFilter, List.filter, betW7, d1, d2, d3, d4,
        sortBetsDesc, List.insertionSort, List.orderedInsert]
      rw [List.take_of_length_le (by simp)])
    betW7 (by simp)

/-- **C8.** Whenever `get_bets` returns a list, that list is sorted in
non-increasing order of edge (`edgeGe`) and contains at most 200 bets:
the filtered list is sorted by descending edge and truncated to 200. -/
theorem get_bets_sorted_capped (events : List Event) (now : String)
    (toDt : String → ℚ) (limitDt : ℚ) (bookmaker : Option String)
    (hoursBefore : Option ℚ) (edgeMin edgeMax : Option ℚ) (out : List Bet)
    (h : get_bets events now toDt limitDt bookmaker hoursBefore edgeMin edgeMax = .ok out) :
    out.length ≤ 200 ∧ out.Pairwise edgeGe := by
  rw [get_bets] at h
  cases hce : compute_edges events now with
  | error e => rw [hce] at h; cases h
  | ok bets0 =>
    rw [hce] at h
    dsimp only at h
    injection h with h2
    subst h2
    constructor
    · rw [List.length_take]
      exact min_le_left _ _
    · exact List.Pairwise.sublist (List.take_sublist _ _)
        (List.sorted_insertionSort edgeGe _)

/-- Witness for C8: a concrete unfiltered request returns one bet — a list
of length ≤ 200, sorted by non-increasing edge. -/
theorem get_bets_sorted_capped_witness :
    [betW8].length ≤ 200 ∧ [betW8].Pairwise edgeGe :=
  get_bets_sorted_capped [evW8] "T8" (fun _ => 0) 0 none none none none [betW8]
    (by
      have hvs : "H8" ++ " vs " ++ "A8" = "H8 vs A8" := by decide
      have hE : ("E8" : String) ≠ "" := by decide
      have hL : ("L8" : String) ≠ "" := by decide
      have hC : ("2024-07-07T00:00:00" : String) ≠ "" := by decide
      norm_num [get_bets, compute_edges, collectEvents, collectEvent,
        collectBookmakers, collectMarkets, collectOutcomes, emitEvents, emitEvent,
        emitBookmakers, emitMarkets, emitOutcomes, eventId1, eventId2, startTime,
        pyOrS, pyOrOpt, strRepr, pyRepr, getDefault, betValidate, pyFloatPrice, dapp, dget, consensus, pysorted,
        edgeMinFilter, edgeMaxFilter, sortBetsDesc, edgeGe, List.insertionSort,
        List.orderedInsert, List.getD, evW8, betW8, hvs, hE, hL, hC])

/-! ### `api_get` error mapping -/

/-- **C9.** `api_get` performs a single upstream attempt (no retry
structure exists in the function) and maps failures to distinct
caller-facing errors: an upstream 401 becomes a 502 gateway error with the
invalid-credential message, an upstream 429 becomes a 429
too-many-requests error, any transport failure becomes a 502 gateway
error carrying the underlying failure description, and any other 4xx/5xx
status (surfaced by `raise_for_status` and caught as a transport failure)
becomes a 502 gateway error carrying the rendered `HTTPError`.  The three
error shapes are pairwise distinct. -/
theorem api_get_error_mapping :
    ∀ (body msg : String) (errStr : ℕ → String → String),
      api_get (.resp 401 body) errStr =
        .error ⟨502, "API Key inválida o no configurada (401)"⟩ ∧
      api_get (.resp 429 body) errStr =
        .error ⟨429, "Límite de peticiones alcanzado (429)"⟩ ∧
      api_get (.failure msg) errStr =
        .error ⟨502, "Error al contactar con The Odds API: " ++ msg⟩ ∧
      (∀ s : ℕ, s ≠ 401 → s ≠ 429 → 400 ≤ s → s < 600 →
        api_get (.resp s body) errStr =
          .error ⟨502, "Error al contactar con The Odds API: " ++ errStr s body⟩) ∧
      (HTTPException.mk 502 "API Key inválida o no configurada (401)" ≠
        HTTPException.mk 429 "Límite de peticiones alcanzado (429)") ∧
      (HTTPException.mk 502 "API Key inválida o no configurada (401)").detail ≠
        ("Error al contactar con The Odds API: " ++ msg) := by
  intro body msg errStr
  refine ⟨by norm_num [api_get], by norm_num [api_get], rfl, ?_, by simp, ?_⟩
  · intro s h401 h429 h400 h600
    rw [api_get, if_neg h401, if_neg h429, if_pos ⟨h400, h600⟩]
  · intro h
    have h2 := congrArg String.data h
    rw [String.data_append] at h2
    have h3 := congrArg List.head? h2
    simp at h3

/-- Witness for C9 (discharging the hypotheses of the 4xx/5xx conjunct at
status 500): a plain upstream 500 maps to a 502 gateway error with the
wrapped transport message. -/
theorem api_get_error_mapping_witness :
    api_get (.resp 500 "b") (fun _ _ => "E") =
      .error ⟨502, "Error al contactar con The Odds API: E"⟩ := by
  have h := (api_get_error_mapping "b" "m" (fun _ _ => "E")).2.2.2.1 500
    (by decide) (by decide) (by decide) (by decide)
  have hs : "Error al contactar con The Odds API: " ++ "E" =
      "Error al contactar con The Odds API: E" := by decide
  rw [h, hs]

end Apuestas
